import Mathlib

/-
Verification development for the namira-core scan pipeline.

Shallow embedding of the Go sources:
  internal/core/parser/{parser,ss,trojan}.go, unnamed/part_013 (vmess parser),
  internal/core/{core,filler}.go, internal/api/{handler,router}.go,
  internal/worker/{pool,types}.go, unnamed/part_008 (crypto Encrypt/Decrypt).

Go strings are modelled as lists of characters (`Str`); Go byte slices as
lists of naturals below 256.  Go `int` is modelled as `Int` (64-bit bounds
made explicit where the code can hit them, e.g. `strconv.Atoi`).  External
collaborators (the network checker, the JSON codec of encoding/json, the
SHA-256 of crypto/sha256, the geo-IP lookup) are parameters of the model.
-/

namespace Namira

abbrev Str := List Char

def str (s : String) : Str := s.data

/-! ## Go standard-library helpers used by the sources -/

/-- First index of a character, `strings.IndexByte` for ASCII arguments. -/
def firstIdx (c : Char) : Str → Option Nat
  | [] => none
  | a :: rest => if a = c then some 0 else (firstIdx c rest).map (· + 1)

/-- Last index of a character, `strings.LastIndex` for one-character needles. -/
def lastIdx (c : Char) : Str → Option Nat
  | [] => none
  | a :: rest =>
    match lastIdx c rest with
    | some i => some (i + 1)
    | none => if a = c then some 0 else none

/-- Split at the first occurrence of a substring; `none` when absent. -/
def splitFirstSub (sep : Str) : Str → Option (Str × Str)
  | [] => none
  | a :: rest =>
    if sep.isPrefixOf (a :: rest) then some ([], (a :: rest).drop sep.length)
    else
      match splitFirstSub sep rest with
      | none => none
      | some (pre, post) => some (a :: pre, post)

/-- Go `strings.SplitN(s, sep, 2)` for a non-empty separator. -/
def goSplitN2 (s sep : Str) : List Str :=
  match splitFirstSub sep s with
  | none => [s]
  | some (a, b) => [a, b]

/-- Go `strings.ToLower`, restricted to ASCII (the schemes it is applied to). -/
def asciiToLower (s : Str) : Str :=
  s.map fun c => if 65 ≤ c.toNat ∧ c.toNat ≤ 90 then Char.ofNat (c.toNat + 32) else c

def isDigitChar (c : Char) : Bool := 48 ≤ c.toNat && c.toNat ≤ 57

/-- Numeric value of a string of decimal digits. -/
def digitsVal (s : Str) : Nat := s.foldl (fun a c => a * 10 + (c.toNat - 48)) 0

def maxInt64 : Nat := 9223372036854775807

/-- Go `strconv.Atoi` (= `ParseInt(s, 10, 64)` on 64-bit platforms):
optional leading sign, at least one digit, 64-bit range enforced. -/
def goAtoi (s : Str) : Option Int :=
  match s with
  | [] => none
  | c :: t =>
    let ds := if c = '-' ∨ c = '+' then t else c :: t
    if ds = [] then none
    else if ¬ ds.all isDigitChar then none
    else
      let v := digitsVal ds
      if c = '-' then
        if v ≤ maxInt64 + 1 then some (-(v : Int)) else none
      else
        if v ≤ maxInt64 then some (v : Int) else none

/-- Go `net.SplitHostPort`.  Faithful to the stdlib: last colon separates the
port; a bracketed host is unwrapped; extra colons or stray brackets fail.
The port is not validated at all. -/
def goSplitHostPort (hp : Str) : Option (Str × Str) :=
  match lastIdx ':' hp with
  | none => none
  | some i =>
    let hostJK : Option (Str × Nat × Nat) :=
      if hp.head? = some '[' then
        match firstIdx ']' hp with
        | none => none
        | some e =>
          if e + 1 = hp.length then none
          else if e + 1 = i then some ((hp.drop 1).take (e - 1), 1, e + 1)
          else none
      else
        let h := hp.take i
        if ':' ∈ h then none else some (h, 0, 0)
    match hostJK with
    | none => none
    | some (h, j, k) =>
      if '[' ∈ hp.drop j then none
      else if ']' ∈ hp.drop k then none
      else some (h, hp.drop (i + 1))

/-! ## Base64 (encoding/base64), as used by the parsers and the filler -/

def b64StdVal (c : Char) : Option Nat :=
  let n := c.toNat
  if 65 ≤ n ∧ n ≤ 90 then some (n - 65)
  else if 97 ≤ n ∧ n ≤ 122 then some (n - 71)
  else if 48 ≤ n ∧ n ≤ 57 then some (n + 4)
  else if c = '+' then some 62
  else if c = '/' then some 63
  else none

def b64UrlVal (c : Char) : Option Nat :=
  let n := c.toNat
  if 65 ≤ n ∧ n ≤ 90 then some (n - 65)
  else if 97 ≤ n ∧ n ≤ 122 then some (n - 71)
  else if 48 ≤ n ∧ n ≤ 57 then some (n + 4)
  else if c = '-' then some 62
  else if c = '_' then some 63
  else none

/-- The Go decoder skips CR and LF anywhere in the input. -/
def stripNL (s : Str) : Str := s.filter fun c => !(c = '\n' || c = '\r')

/-- Unpadded base64 decoding over a six-bit alphabet: full quanta of four
characters yield three bytes, a trailing quantum of two or three characters
yields one or two bytes, a single leftover character is an error. -/
def b64DecodeRaw (val : Char → Option Nat) : Str → Option (List Nat)
  | [] => some []
  | [_] => none
  | [c1, c2] => do
    let v1 ← val c1
    let v2 ← val c2
    pure [v1 * 4 + v2 / 16]
  | [c1, c2, c3] => do
    let v1 ← val c1
    let v2 ← val c2
    let v3 ← val c3
    pure [v1 * 4 + v2 / 16, v2 % 16 * 16 + v3 / 4]
  | c1 :: c2 :: c3 :: c4 :: rest => do
    let v1 ← val c1
    let v2 ← val c2
    let v3 ← val c3
    let v4 ← val c4
    let bs ← b64DecodeRaw val rest
    pure ([v1 * 4 + v2 / 16, v2 % 16 * 16 + v3 / 4, v3 % 4 * 64 + v4] ++ bs)

def trailPad (s : Str) : Nat := (s.reverse.takeWhile fun c => c = '=').length

/-- Padded base64 decoding: total length a multiple of four, at most two
trailing padding characters, none elsewhere. -/
def b64DecodePadded (val : Char → Option Nat) (s0 : Str) : Option (List Nat) :=
  let s := stripNL s0
  if s.length % 4 ≠ 0 then none
  else
    let p := trailPad s
    let body := s.take (s.length - p)
    if 2 < p then none
    else if '=' ∈ body then none
    else b64DecodeRaw val body

/-- The four-way decode chain used by the vmess and ss parsers:
StdEncoding, URLEncoding, RawStdEncoding, RawURLEncoding, in that order. -/
def base64Chain4 (s : Str) : Option (List Nat) :=
  (b64DecodePadded b64StdVal s) <|> (b64DecodePadded b64UrlVal s)
    <|> (b64DecodeRaw b64StdVal (stripNL s)) <|> (b64DecodeRaw b64UrlVal (stripNL s))

/-- The three-way decode chain of filler.go's base64Decode:
StdEncoding, URLEncoding, RawStdEncoding. -/
def base64Chain3 (s : Str) : Option (List Nat) :=
  (b64DecodePadded b64StdVal s) <|> (b64DecodePadded b64UrlVal s)
    <|> (b64DecodeRaw b64StdVal (stripNL s))

def b64StdChar (n : Nat) : Char :=
  if n < 26 then Char.ofNat (n + 65)
  else if n < 52 then Char.ofNat (n + 71)
  else if n < 62 then Char.ofNat (n - 4)
  else if n = 62 then '+'
  else '/'

/-- Go `base64.StdEncoding.EncodeToString` (padded). -/
def b64Encode : List Nat → Str
  | [] => []
  | [b1] => [b64StdChar (b1 / 4), b64StdChar (b1 % 4 * 16), '=', '=']
  | [b1, b2] => [b64StdChar (b1 / 4), b64StdChar (b1 % 4 * 16 + b2 / 16), b64StdChar (b2 % 16 * 4), '=']
  | b1 :: b2 :: b3 :: rest =>
    [b64StdChar (b1 / 4), b64StdChar (b1 % 4 * 16 + b2 / 16),
     b64StdChar (b2 % 16 * 4 + b3 / 64), b64StdChar (b3 % 64)] ++ b64Encode rest

/-- ASCII bytes of a string (the links in question are ASCII). -/
def strBytes (s : Str) : List Nat := s.map Char.toNat

/-- Go's byte-slice-to-string conversion, read back at character level;
faithful for ASCII content, which is all the parsers compare against. -/
def bytesStr (bs : List Nat) : Str := bs.map Char.ofNat

/-- Go `url.QueryUnescape`, scoped to its use on remark fragments: percent
triples become bytes, plus becomes space; a malformed escape fails and the
callers then use the empty string (they ignore the error). -/
def queryUnescapeCore : Str → Option Str
  | [] => some []
  | '%' :: h1 :: h2 :: rest => do
    let hv := fun (c : Char) =>
      if 48 ≤ c.toNat ∧ c.toNat ≤ 57 then some (c.toNat - 48)
      else if 65 ≤ c.toNat ∧ c.toNat ≤ 70 then some (c.toNat - 55)
      else if 97 ≤ c.toNat ∧ c.toNat ≤ 102 then some (c.toNat - 87)
      else none
    let a ← hv h1
    let b ← hv h2
    let rest ← queryUnescapeCore rest
    pure (Char.ofNat (a * 16 + b) :: rest)
  | '%' :: _ => none
  | '+' :: rest => (queryUnescapeCore rest).map ((' ') :: ·)
  | c :: rest => (queryUnescapeCore rest).map (c :: ·)

def queryUnescape (s : Str) : Str := (queryUnescapeCore s).getD []

/-! ## Shadowsocks parser (internal/core/parser/ss.go, parseSS) -/

structure SSConfig where
  server : Str
  port : Int
  method : List Nat
  password : List Nat
  remark : Str
deriving DecidableEq, Repr

/-- parseSS, ss.go lines 47-111.  Strips the scheme, peels one fragment,
splits auth and server at the last at-sign, base64-decodes the auth through
the four-encoding chain, splits it at a colon, then splits host and port and
converts the port with `strconv.Atoi` - with no validation of either. -/
def parseSS (link : Str) : Except Str SSConfig :=
  if ¬ (str "ss://").isPrefixOf link then .error (str "invalid ShadowSocks link format")
  else
    let link1 := link.drop 5
    let parts := List.splitOn '#' link1
    let remark := if parts.length = 2 then queryUnescape (parts.getD 1 []) else []
    let link2 := if parts.length = 2 then parts.getD 0 [] else link1
    match lastIdx '@' link2 with
    | none => .error (str "invalid ShadowSocks link format")
    | some atIndex =>
      let authPart := link2.take atIndex
      let serverPart := link2.drop (atIndex + 1)
      match base64Chain4 authPart with
      | none => .error (str "invalid ShadowSocks link format: failed to decode auth")
      | some authData =>
        let auth := List.splitOn 58 authData
        if auth.length ≠ 2 then .error (str "invalid ShadowSocks link format: invalid auth format")
        else
          match goSplitHostPort serverPart with
          | none => .error (str "invalid ShadowSocks link format: invalid server format")
          | some (host, portStr) =>
            match goAtoi portStr with
            | none => .error (str "invalid ShadowSocks link format: invalid port")
            | some p =>
              .ok { server := host, port := p, method := auth.getD 0 [],
                    password := auth.getD 1 [], remark := remark }

/-! ## net/url, scoped to the authority-form links the parsers consume

The trojan and vless parsers go through `url.Parse` and use only the
`User.Username()`, `Host`, `Query()` and `Fragment` projections.  The model
below covers links of shape `scheme://[userinfo@]host[:port][?query][#frag]`
(no path, no percent-escapes in userinfo or host, no IPv6 brackets), exactly
the shapes the claims quantify over; like the stdlib it lowercases the
scheme and rejects a non-numeric character in the port position. -/

structure URLModel where
  scheme : Str
  hasUser : Bool
  username : Str
  host : Str
  rawQuery : Str
  fragment : Str
deriving DecidableEq, Repr

def validSchemeChar (c : Char) : Bool :=
  (65 ≤ c.toNat && c.toNat ≤ 90) || (97 ≤ c.toNat && c.toNat ≤ 122) ||
    (48 ≤ c.toNat && c.toNat ≤ 57) || c = '+' || c = '-' || c = '.'

def validScheme (s : Str) : Bool :=
  match s with
  | [] => false
  | c :: rest =>
    ((65 ≤ c.toNat && c.toNat ≤ 90) || (97 ≤ c.toNat && c.toNat ≤ 122)) &&
      rest.all validSchemeChar

/-- Go `validOptionalPort` on the text after the last colon of the authority:
it must consist of decimal digits only (any number of them, no range check). -/
def validOptionalPortOf (hp : Str) : Bool :=
  match lastIdx ':' hp with
  | none => true
  | some i => (hp.drop (i + 1)).all isDigitChar

def urlParse (s : Str) : Option URLModel :=
  let (beforeFrag, frag) :=
    match firstIdx '#' s with
    | some i => (s.take i, s.drop (i + 1))
    | none => (s, [])
  match splitFirstSub (str "://") beforeFrag with
  | none => none
  | some (scheme, rest) =>
    if ¬ validScheme scheme then none
    else
      let (authorityPlus, query) :=
        match firstIdx '?' rest with
        | some i => (rest.take i, rest.drop (i + 1))
        | none => (rest, [])
      let authority :=
        match firstIdx '/' authorityPlus with
        | some i => authorityPlus.take i
        | none => authorityPlus
      let (userinfo, hostport) :=
        match lastIdx '@' authority with
        | some i => (some (authority.take i), authority.drop (i + 1))
        | none => (none, authority)
      if ¬ validOptionalPortOf hostport then none
      else
        let username :=
          match userinfo with
          | none => []
          | some ui =>
            match firstIdx ':' ui with
            | some i => ui.take i
            | none => ui
        some { scheme := asciiToLower scheme, hasUser := userinfo.isSome,
               username := username, host := hostport, rawQuery := query,
               fragment := frag }

/-- Go `url.Values.Get` after `url.ParseQuery`: split the raw query on
ampersands, cut each segment at the first equals sign, unescape both halves
(skipping a segment whose unescape fails, as ParseQuery does), and return
the first value bound to the key, or the empty string. -/
def queryGet (raw : Str) (key : Str) : Str :=
  let pairs := (List.splitOn '&' raw).filterMap fun seg =>
    let kv := goSplitN2 seg (str "=")
    let k := kv.getD 0 []
    let v := kv.getD 1 []
    if k = [] then none
    else
      match queryUnescapeCore k, queryUnescapeCore v with
      | some k2, some v2 => some (k2, v2)
      | _, _ => none
  match pairs.find? (fun kv => kv.1 = key) with
  | some kv => kv.2
  | none => []

/-! ## Trojan parser (internal/core/parser/trojan.go, parseTrojan) -/

structure TrojanConfig where
  server : Str
  port : Int
  password : Str
  sni : Str
  alpn : Str
  network : Str
  headerType : Str
  host : Str
  path : Str
  mode : Str
  authority : Str
  serviceName : Str
  security : Str
  allowInsecure : Bool
  remark : Str
deriving DecidableEq, Repr

/-- parseTrojan, trojan.go lines 178-241.  `headerType` models the Go field
`Type` (query parameter headerType). -/
def parseTrojan (link : Str) : Except Str TrojanConfig :=
  match urlParse link with
  | none => .error (str "invalid Trojan link format")
  | some u =>
    let password := u.username
    match goSplitHostPort u.host with
    | none => .error (str "invalid Trojan link format")
    | some (host, portStr) =>
      match goAtoi portStr with
      | none => .error (str "invalid port")
      | some port =>
        let q := u.rawQuery
        let sni0 := queryGet q (str "sni")
        let sni := if sni0 = [] then queryGet q (str "peer") else sni0
        let network0 := queryGet q (str "type")
        let network := if network0 = [] then str "tcp" else network0
        let security0 := queryGet q (str "security")
        let security := if security0 = [] then str "tls" else security0
        let allowInsecure :=
          queryGet q (str "allowInsecure") = str "1" ∨ queryGet q (str "allowInsecure") = str "true" ∨
            queryGet q (str "skipCertVerify") = str "1" ∨ queryGet q (str "skipCertVerify") = str "true"
        let remark := if u.fragment ≠ [] then queryUnescape u.fragment else []
        if host = [] then .error (str "server address is required")
        else if password = [] then .error (str "password is required")
        else if port = 0 then .error (str "port is required")
        else
          .ok { server := host, port := port, password := password, sni := sni,
                alpn := queryGet q (str "alpn"), network := network,
                headerType := queryGet q (str "headerType"), host := queryGet q (str "host"),
                path := queryGet q (str "path"), mode := queryGet q (str "mode"),
                authority := queryGet q (str "authority"),
                serviceName := queryGet q (str "serviceName"), security := security,
                allowInsecure := allowInsecure, remark := remark }

/-! ## VLESS parser (parser/vless.go section of trojan.go's file pair) -/

structure VlessConfig where
  server : Str
  port : Int
  id : Str
  encryption : Str
  flow : Str
  security : Str
  sni : Str
  alpn : Str
  network : Str
  headerType : Str
  host : Str
  path : Str
  mode : Str
  authority : Str
  serviceName : Str
  remark : Str
deriving DecidableEq, Repr

/-- parseVless: scheme prefix check, user ID from userinfo (required), host
and port from the authority, query parameters with defaults
`encryption=none`, `type=tcp`; rejects empty server, port 0 and any
encryption other than none. -/
def parseVless (link : Str) : Except Str VlessConfig :=
  if ¬ (str "vless://").isPrefixOf link then .error (str "invalid VLESS link format")
  else
    match urlParse link with
    | none => .error (str "invalid VLESS link format")
    | some u =>
      let id := if u.hasUser then u.username else []
      if id = [] then .error (str "user ID is required")
      else
        match goSplitHostPort u.host with
        | none => .error (str "invalid VLESS link format")
        | some (host, portStr) =>
          match goAtoi portStr with
          | none => .error (str "invalid port")
          | some port =>
            let q := u.rawQuery
            let encryption0 := queryGet q (str "encryption")
            let encryption := if encryption0 = [] then str "none" else encryption0
            let network0 := queryGet q (str "type")
            let network := if network0 = [] then str "tcp" else network0
            let remark := if u.fragment ≠ [] then queryUnescape u.fragment else []
            if host = [] then .error (str "server address is required")
            else if port = 0 then .error (str "port is required")
            else if encryption ≠ str "none" then
              .error (str "VLESS only supports none encryption")
            else
              .ok { server := host, port := port, id := id, encryption := encryption,
                    flow := queryGet q (str "flow"), security := queryGet q (str "security"),
                    sni := queryGet q (str "sni"), alpn := queryGet q (str "alpn"),
                    network := network, headerType := queryGet q (str "headerType"),
                    host := queryGet q (str "host"), path := queryGet q (str "path"),
                    mode := queryGet q (str "mode"), authority := queryGet q (str "authority"),
                    serviceName := queryGet q (str "serviceName"), remark := remark }

/-! ## VMess parser (unnamed/part_013, parseVMess) -/

/-- The JSON shape `vmessLinkConfig`: every field is a string, exactly as in
the Go struct the body is unmarshalled into. -/
structure VmessLinkConfig where
  v : Str := []
  ps : Str := []
  add : Str := []
  port : Str := []
  id : Str := []
  aid : Str := []
  scy : Str := []
  net : Str := []
  typeF : Str := []
  host : Str := []
  path : Str := []
  tls : Str := []
  sni : Str := []
deriving DecidableEq, Repr

structure VmessConfig where
  server : Str
  port : Int
  id : Str
  alterId : Int
  security : Str
  network : Str
  typeF : Str
  host : Str
  path : Str
  tls : Str
  sni : Str
  remark : Str
deriving DecidableEq, Repr

/-- The post-unmarshal half of parseVMess (part_013 lines 201-253): port and
aid coercion through `strconv.Atoi` when the strings are non-empty, the
`scy=auto`, `net=tcp`, `type=none` defaults, and the add/id/port
validations. -/
def parseVMessDecoded (lc : VmessLinkConfig) : Except Str VmessConfig :=
  let base : VmessConfig :=
    { server := lc.add, port := 0, id := lc.id, alterId := 0, security := lc.scy,
      network := lc.net, typeF := lc.typeF, host := lc.host, path := lc.path,
      tls := lc.tls, sni := lc.sni, remark := lc.ps }
  let portRes : Except Str Int :=
    if lc.port ≠ [] then
      match goAtoi lc.port with
      | none => .error (str "invalid port")
      | some p => .ok p
    else .ok 0
  match portRes with
  | .error e => .error e
  | .ok port =>
    let aidRes : Except Str Int :=
      if lc.aid ≠ [] then
        match goAtoi lc.aid with
        | none => .error (str "invalid alter ID")
        | some a => .ok a
      else .ok 0
    match aidRes with
    | .error e => .error e
    | .ok aid =>
      let c := { base with port := port, alterId := aid }
      let c := if c.security = [] then { c with security := str "auto" } else c
      let c := if c.network = [] then { c with network := str "tcp" } else c
      let c := if c.typeF = [] then { c with typeF := str "none" } else c
      if c.server = [] then .error (str "server address is required")
      else if c.id = [] then .error (str "user ID is required")
      else if c.port = 0 then .error (str "port is required")
      else .ok c

/-- Full split on a substring (Go `strings.Split`); fuelled recursion, the
fuel is an upper bound on the number of splits. -/
def splitSubGo (sep : Str) : Nat → Str → List Str
  | 0, s => [s]
  | fuel + 1, s =>
    match splitFirstSub sep s with
    | none => [s]
    | some (a, b) => a :: splitSubGo sep fuel b

def splitSub (sep s : Str) : List Str := splitSubGo sep (s.length + 1) s

/-- parseVMess at the link level: prefix check, `strings.Split` on the
scheme separator (a second occurrence anywhere in the body makes the split
longer than two and the link invalid), the four-way base64 chain, then the
JSON unmarshal - supplied as the external collaborator `jsonVMess` - and
the decoded-half processing above. -/
def parseVMess (jsonVMess : List Nat → Option VmessLinkConfig) (link : Str) :
    Except Str VmessConfig :=
  if ¬ (str "vmess://").isPrefixOf link then .error (str "invalid VMess link format")
  else
    let parts := splitSub (str "://") link
    if parts.length ≠ 2 then .error (str "invalid VMess link format")
    else
      match base64Chain4 (parts.getD 1 []) with
      | none => .error (str "invalid VMess link format: unable to decode base64")
      | some data =>
        match jsonVMess data with
        | none => .error (str "invalid VMess link format: bad json")
        | some lc => parseVMessDecoded lc

/-! ## Parser dispatch (internal/core/parser/parser.go, Parser.Parse) -/

inductive ParsedConfig where
  | ss (c : SSConfig)
  | vless (c : VlessConfig)
  | vmess (c : VmessConfig)
  | trojan (c : TrojanConfig)
deriving DecidableEq, Repr

/-- Parser.Parse: empty input rejected, scheme cut at the first `://`,
lower-cased, dispatched over the registered parsers. The JSON collaborator
is threaded through for the vmess case. -/
def parseConfig (jsonVMess : List Nat → Option VmessLinkConfig) (config : Str) :
    Except Str ParsedConfig :=
  if config = [] then .error (str "invalid config format")
  else
    match goSplitN2 config (str "://") with
    | [proto0, _] =>
      let protocol := asciiToLower proto0
      if protocol = str "ss" then (parseSS config).map .ss
      else if protocol = str "vless" then (parseVless config).map .vless
      else if protocol = str "vmess" then (parseVMess jsonVMess config).map .vmess
      else if protocol = str "trojan" then (parseTrojan config).map .trojan
      else .error (str "unsupported config type")
    | _ => .error (str "invalid config format")

/-! ## Result filler (internal/core/filler.go)

The geo-IP lookup (`getCountryFromServer`: DNS plus a chain of HTTP
endpoints) and the JSON codec of the vmess rewrite are network and stdlib
collaborators; they enter the model as the `Ext` record.  Everything else
is translated from filler.go. -/

/-- External collaborators of the core: geo-IP lookup (server name to
ISO-3166 code, empty when unavailable), `encoding/json` unmarshal of a vmess
body into `vmessLinkConfig`, the map-level unmarshal used by the vmess fill
(returning the `add` field, `none` on unmarshal failure) and the map-level
remarshal with `ps` replaced. -/
structure Ext where
  countryLookup : Str → Str
  jsonVMess : List Nat → Option VmessLinkConfig
  vmessMapAdd : List Nat → Option Str
  vmessSetPs : List Nat → Str → List Nat

structure RemarkTemplate where
  orgName : Str
  separator : Str
  showCountry : Bool
  showHost : Bool
  showProtocol : Bool

def defaultRemarkTemplate : RemarkTemplate :=
  { orgName := str "NaMiraNet", separator := str " | ",
    showCountry := true, showHost := true, showProtocol := true }

/-- The `protocolEmojis` map: HighVoltage, Rocket, Shield, Locked from the
enescakir/emoji package. -/
def protocolEmoji (p : Str) : Option Str :=
  if p = str "vmess" then some (str "⚡")
  else if p = str "vless" then some (str "🚀")
  else if p = str "trojan" then some (str "🛡️")
  else if p = str "ss" then some (str "🔒")
  else none

def asciiToUpper (s : Str) : Str :=
  s.map fun c => if 97 ≤ c.toNat ∧ c.toNat ≤ 122 then Char.ofNat (c.toNat - 32) else c

/-- emoji.CountryFlag: exactly two characters required, each mapped to a
regional-indicator symbol after upper-casing. -/
def countryFlag (code : Str) : Option Str :=
  if code.length ≠ 2 then none
  else some ((asciiToUpper code).map fun c => Char.ofNat (0x1F1E6 + c.toNat - 65))

/-- extractServerFromURL, filler.go lines 205-230: drop the scheme, drop
everything through the first at-sign, cut at the first of slash, question
mark or hash, then try to strip a port; an empty or failed host split keeps
the whole host-port text. -/
def extractServerFromURL (config : Str) : Str :=
  match goSplitN2 config (str "://") with
  | [_, urlPart0] =>
    let urlPart1 :=
      match firstIdx '@' urlPart0 with
      | some idx => urlPart0.drop (idx + 1)
      | none => urlPart0
    let cut :=
      [firstIdx '/' urlPart1, firstIdx '?' urlPart1, firstIdx '#' urlPart1].reduceOption
    let urlPart :=
      match cut.min? with
      | some idx => urlPart1.take idx
      | none => urlPart1
    match goSplitHostPort urlPart with
    | some (host, _) => if host = [] then urlPart else host
    | none => urlPart
  | _ => []

/-- extractHost, filler.go lines 232-242. -/
def extractHost (server : Str) : Str :=
  if server = [] then []
  else
    match goSplitHostPort server with
    | some (host, _) => host
    | none => server

/-- generateRemark, filler.go lines 104-131; returns the joined remark and
the country code. -/
def generateRemark (countryLookup : Str → Str) (server protocol : Str)
    (tmpl : RemarkTemplate) : Str × Str :=
  let parts := [str "✨ " ++ tmpl.orgName]
  let parts :=
    if tmpl.showProtocol then
      match protocolEmoji protocol with
      | some e => parts ++ [e]
      | none => parts
    else parts
  let parts :=
    if tmpl.showHost ∧ server ≠ [] then
      let host := extractHost server
      if host ≠ [] then parts ++ [str "🌐 " ++ host] else parts
    else parts
  let countryCode := if tmpl.showCountry then countryLookup server else []
  let parts :=
    if tmpl.showCountry ∧ countryCode ≠ [] then
      match countryFlag countryCode with
      | some flag => parts ++ [flag]
      | none => parts ++ [str "🏁 " ++ countryCode]
    else parts
  (List.intercalate tmpl.separator parts, countryCode)

/-! Percent-escaping: `url.PathEscape` works on the UTF-8 bytes of the
remark. -/

def utf8Bytes (c : Char) : List Nat :=
  let n := c.toNat
  if n < 128 then [n]
  else if n < 2048 then [192 + n / 64, 128 + n % 64]
  else if n < 65536 then [224 + n / 4096, 128 + n / 64 % 64, 128 + n % 64]
  else [240 + n / 262144, 128 + n / 4096 % 64, 128 + n / 64 % 64, 128 + n % 64]

/-- net/url shouldEscape for a path segment: keep alphanumerics, the four
RFC 3986 unreserved marks, and the sub-delims that are legal inside one
segment; escape slash, semicolon, comma, question mark and the rest. -/
def shouldEscapePathSeg (b : Nat) : Bool :=
  if (97 ≤ b && b ≤ 122) || (65 ≤ b && b ≤ 90) || (48 ≤ b && b ≤ 57) then false
  else if b = 45 || b = 95 || b = 46 || b = 126 then false
  else if b = 36 || b = 38 || b = 43 || b = 58 || b = 61 || b = 64 then false
  else true

def hexUpper (n : Nat) : Char :=
  if n < 10 then Char.ofNat (48 + n) else Char.ofNat (55 + n)

/-- Go `url.PathEscape`. -/
def pathEscape (s : Str) : Str :=
  (s.flatMap utf8Bytes).flatMap fun b =>
    if shouldEscapePathSeg b then ['%', hexUpper (b / 16), hexUpper (b % 16)]
    else [Char.ofNat b]

inductive CheckStatus where
  | success
  | unavailable
  | error
deriving DecidableEq, Repr

/-- core.CheckResult (third core.go revision): `errorText` models the Go
field `Error string`; `realDelay` is the time.Duration in nanoseconds. -/
structure CheckResultM where
  status : CheckStatus
  protocol : Str
  raw : Str
  realDelay : Int
  remark : Str
  server : Str
  countryCode : Str
  errorText : Str
deriving DecidableEq, Repr

/-- fillURLResult, filler.go lines 96-102: unconditionally strips the
fragment and appends the escaped regenerated remark. -/
def fillURLResult (countryLookup : Str → Str) (tmpl : RemarkTemplate)
    (protocol : Str) (result : CheckResultM) : CheckResultM :=
  let raw0 := (List.splitOn '#' result.raw).getD 0 []
  let server := extractServerFromURL raw0
  let rc := generateRemark countryLookup server protocol tmpl
  { result with raw := raw0 ++ '#' :: pathEscape rc.1,
                remark := rc.1, countryCode := rc.2, server := server }

/-- fillVMessResult, filler.go lines 68-94: decode the body through the
three-way chain, unmarshal, regenerate the remark, set `ps`, re-marshal and
re-encode; each failure leaves the result as it stands. -/
def fillVMessResult (ext : Ext) (tmpl : RemarkTemplate) (result : CheckResultM) :
    CheckResultM :=
  match goSplitN2 result.raw (str "://") with
  | [p0, body] =>
    match base64Chain3 body with
    | none => result
    | some data =>
      match ext.vmessMapAdd data with
      | none => result
      | some server =>
        let rc := generateRemark ext.countryLookup server (str "vmess") tmpl
        let newData := ext.vmessSetPs data rc.1
        { result with server := server, remark := rc.1, countryCode := rc.2,
                      raw := p0 ++ str "://" ++ b64Encode newData }
  | _ => result

/-- FillCheckResult, filler.go lines 48-66: set the protocol from the text
before the scheme separator and dispatch; unknown protocols are returned
unchanged. -/
def fillCheckResult (ext : Ext) (tmpl : RemarkTemplate) (result : CheckResultM) :
    CheckResultM :=
  match goSplitN2 result.raw (str "://") with
  | [p0, _] =>
    let result := { result with protocol := p0 }
    if p0 = str "vmess" then fillVMessResult ext tmpl result
    else if p0 = str "vless" ∨ p0 = str "trojan" ∨ p0 = str "ss" then
      fillURLResult ext.countryLookup tmpl p0 result
    else result
  | _ => result

/-! ## Per-configuration pipeline (internal/core/core.go, CheckConfigs'
goroutine body, lines 387-416 of the current revision) -/

def emptyCheckResult (cfg : Str) : CheckResultM :=
  { status := .success, protocol := [], raw := cfg, realDelay := 0,
    remark := [], server := [], countryCode := [], errorText := [] }

/-- The body run for one configuration: build the initial success result
with the raw link, parse (parse errors are emitted untouched), run the
checker - its outcome is the network collaborator `checkOutcome` - then
fill the result unconditionally, and only afterwards branch on the check
error. -/
def checkConfigProcess (ext : Ext) (checkOutcome : Except Str Int) (cfg : Str) :
    CheckResultM :=
  let result := emptyCheckResult cfg
  match parseConfig ext.jsonVMess cfg with
  | .error e => { result with status := .error, errorText := e }
  | .ok _ =>
    let result := fillCheckResult ext defaultRemarkTemplate result
    match checkOutcome with
    | .error e => { result with status := .error, errorText := e }
    | .ok delay => { result with realDelay := delay }

/-! ## Job registry (internal/api/router.go types section, Job and its
methods).  Wall-clock timestamps are not modelled; everything else is. -/

inductive JobStatus where
  | pending
  | running
  | completed
  | failed
deriving DecidableEq, Repr

/-- The api.CheckResult record stored per config inside a Job. -/
structure JobCheckResult where
  index : Int
  status : Str
  delay : Int
  errorText : Str
deriving DecidableEq, Repr

/-- Assoc-list update with Go map semantics: assignment overwrites. -/
def assocPut (m : List (Str × α)) (k : Str) (v : α) : List (Str × α) :=
  match m with
  | [] => [(k, v)]
  | (k0, v0) :: rest => if k0 = k then (k, v) :: rest else (k0, v0) :: assocPut rest k v

structure Job where
  id : Str
  status : JobStatus
  configs : List Str
  results : List (Str × JobCheckResult)
  totalCount : Nat
  doneCount : Nat
  errorText : Str
deriving DecidableEq, Repr

/-- NewJob: the fresh UUID is a parameter (crypto/rand collaborator). -/
def newJob (id : Str) (configs : List Str) : Job :=
  { id := id, status := .pending, configs := configs, results := [],
    totalCount := configs.length, doneCount := 0, errorText := [] }

def updateStatus (j : Job) (st : JobStatus) (err : Option Str) : Job :=
  { j with status := st, errorText := err.getD j.errorText }

def startJob (j : Job) : Job := updateStatus j .running none

def completeJob (j : Job) : Job := updateStatus j .completed none

def failJob (j : Job) (e : Str) : Job := updateStatus j .failed (some e)

/-- Job.Done: increments the counter only. -/
def doneJob (j : Job) : Job := { j with doneCount := j.doneCount + 1 }

/-- Job.AddResult: stores the record and increments the counter. -/
def addResult (j : Job) (hash : Str) (r : JobCheckResult) : Job :=
  { j with results := assocPut j.results hash r, doneCount := j.doneCount + 1 }

/-- HashConfig: SHA-256 hex digest - the `sha` collaborator - of the link
with its fragment stripped. -/
def hashConfig (sha : List Nat → Str) (config : Str) : Str :=
  sha (strBytes ((List.splitOn '#' config).getD 0 []))

def statusStr : CheckStatus → Str
  | .success => str "success"
  | .unavailable => str "unavailable"
  | .error => str "error"

/-! ## executeCheckTask (internal/api/handler.go lines 302-357, current
revision).  The loop over the results channel is modelled as a fold over
the list of check results; `notified` collects the arguments of the
`jobsOnSuccess` calls in order. -/

structure TaskStepState where
  job : Job
  notified : List CheckResultM
  idx : Int
deriving Repr

/-- One iteration of the result loop: build the per-config record, count an
errored result with `Job.Done`, store a successful one with `Job.AddResult`
and notify unless the job ID carries the refresh prefix, then complete the
job once the counter has reached the total. -/
def processOneResult (sha : List Nat → Str) (st : TaskStepState)
    (result : CheckResultM) : TaskStepState :=
  let cr : JobCheckResult :=
    { index := st.idx, status := statusStr result.status,
      delay := Int.tdiv result.realDelay 1000000, errorText := [] }
  let job1 :=
    if result.errorText ≠ [] then doneJob st.job
    else addResult st.job (hashConfig sha result.raw) cr
  let notified :=
    if result.errorText = [] ∧ ¬ (str "refresh-").isPrefixOf st.job.id then
      st.notified ++ [result]
    else st.notified
  let job2 := if job1.totalCount ≤ job1.doneCount then completeJob job1 else job1
  { job := job2, notified := notified, idx := st.idx + 1 }

def executeCheckTask (sha : List Nat → Str) (job : Job)
    (results : List CheckResultM) : TaskStepState :=
  results.foldl (processOneResult sha) { job := job, notified := [], idx := 0 }

/-! ## Reservation lock and scan gate (internal/api/handler.go,
handleScan lines 148-228; sync.RWMutex) -/

structure RWLock where
  writerHeld : Bool
  readers : Nat
deriving DecidableEq, Repr

/-- sync.RWMutex.TryRLock: fails while the writer holds the lock.  (The Go
primitive also fails fast while a writer is blocked waiting; only the held
case is reachable in the handler and claimed.) -/
def tryRLock (l : RWLock) : Option RWLock :=
  if l.writerHeld then none else some { l with readers := l.readers + 1 }

def rUnlock (l : RWLock) : RWLock := { l with readers := l.readers - 1 }

structure HttpResponse where
  code : Nat
  message : Str
deriving DecidableEq, Repr

structure ApiState where
  lock : RWLock
  jobs : List (Str × Job)
deriving DecidableEq, Repr

/-- handleScan.  The request body extraction (multipart or JSON, with its
error message), the Redis dedup filter and the worker-pool submission are
the collaborators `reqConfigs`, `dedup` and `submitRes`; `newId` is the
fresh UUID.  The deferred read-unlock is applied on every exit path; the
503 path rejects before the read lock is ever held and changes nothing. -/
def handleScan (reqConfigs : Except Str (List Str))
    (dedup : List Str → Except Str (List Str)) (newId : Str)
    (submitRes : Except Str Unit) (st : ApiState) : HttpResponse × ApiState :=
  match tryRLock st.lock with
  | none => ({ code := 503, message := str "Background refresh in progress" }, st)
  | some l1 =>
    let exit := fun (resp : HttpResponse) (jobs : List (Str × Job)) =>
      (resp, { lock := rUnlock l1, jobs := jobs })
    match reqConfigs with
    | .error msg => exit { code := 400, message := msg } st.jobs
    | .ok configs =>
      if configs.length = 0 then
        exit { code := 400, message := str "No configs provided" } st.jobs
      else
        match dedup configs with
        | .error _ =>
          exit { code := 500, message := str "Failed to filter duplicates" } st.jobs
        | .ok uniqueConfigs =>
          if uniqueConfigs.length = 0 then
            exit { code := 400, message := str "All configs are duplicates" } st.jobs
          else
            let job := startJob (newJob newId uniqueConfigs)
            match submitRes with
            | .error e =>
              exit { code := 500, message := str "Failed to submit task" }
                (assocPut st.jobs job.id (failJob job e))
            | .ok _ =>
              exit { code := 200, message := job.id } (assocPut st.jobs job.id job)

/-! ## Background refresh (internal/api/handler.go,
performBackgroundRefresh lines 93-146).  The control flow is modelled as
the trace of its primitive effects; the completion callback runs on a
worker goroutine after Submit has returned. -/

inductive RefreshEvent where
  | lockAcquire
  | fetch
  | flush
  | jobStart
  | submitTask
  | lockRelease
  | jobComplete
  | jobFail
deriving DecidableEq, Repr

/-- The event trace of one performBackgroundRefresh call, driven by the
outcomes of its three effectful collaborators (artifact fetch, Redis cache
flush, worker-pool submit).  The deferred `refreshMutex.Unlock` emits
`lockRelease` exactly when the function returns. -/
def performBackgroundRefresh (fetchRes : Except Str (List Str))
    (flushOk : Bool) (submitOk : Bool) : List RefreshEvent :=
  [.lockAcquire, .fetch] ++
    match fetchRes with
    | .error _ => [.lockRelease]
    | .ok configs =>
      if configs.length = 0 then [.lockRelease]
      else
        .flush ::
          (if ¬ flushOk then [.lockRelease]
           else [.jobStart, .submitTask] ++
             (if submitOk then [.lockRelease] else [.jobFail, .lockRelease]))

/-- Whether the refresh flow reached a successful submission (and hence a
callback will fire later). -/
def refreshSubmitted (fetchRes : Except Str (List Str)) (flushOk submitOk : Bool) :
    Bool :=
  match fetchRes with
  | .error _ => false
  | .ok configs => configs.length ≠ 0 && flushOk && submitOk

/-- The task callback (lines 127-140): `job.Fail` on an execute error,
otherwise `job.Complete`.  It runs strictly after the submit returned. -/
def refreshCallback (cbErr : Option Str) : List RefreshEvent :=
  match cbErr with
  | some _ => [.jobFail]
  | none => [.jobComplete]

/-- The whole-system trace: the refresh routine's own events followed by
the asynchronous callback events when a task was submitted. -/
def refreshSystemTrace (fetchRes : Except Str (List Str)) (flushOk submitOk : Bool)
    (cbErr : Option Str) : List RefreshEvent :=
  performBackgroundRefresh fetchRes flushOk submitOk ++
    (if refreshSubmitted fetchRes flushOk submitOk then refreshCallback cbErr else [])

/-! ## Worker pool (internal/worker/pool.go, Submit lines 76-93) -/

structure PoolState where
  started : Bool
  ctxDone : Bool
  queue : List Str
  cap : Nat
  totalTasks : Int
  completedTasks : Int
  failedTasks : Int
deriving DecidableEq, Repr

/-- WorkerPool.Submit.  The Go `select` with a `default` branch never
blocks; when several branches are ready it picks one at random, so Submit
is a relation on states: not-started check first, then either the enqueue
branch (channel has room), the shutdown branch (context cancelled), or the
default queue-full branch - the latter only when no other branch is
ready. -/
inductive SubmitStep (t : Str) : PoolState → PoolState × Option Str → Prop where
  | notStarted (s : PoolState) (h : s.started = false) :
      SubmitStep t s (s, some (str "worker pool is not started"))
  | enqueue (s : PoolState) (h : s.started = true) (hq : s.queue.length < s.cap) :
      SubmitStep t s
        ({ s with queue := s.queue ++ [t], totalTasks := s.totalTasks + 1 }, none)
  | shutdown (s : PoolState) (h : s.started = true) (hd : s.ctxDone = true) :
      SubmitStep t s (s, some (str "worker pool is shutting down"))
  | queueFull (s : PoolState) (h : s.started = true)
      (hq : ¬ s.queue.length < s.cap) (hd : s.ctxDone = false) :
      SubmitStep t s (s, some (str "task queue is full"))

/-! ## Encryption (unnamed/part_008, crypto package Encrypt/Decrypt)

Modelled from the spec: the AES-256-GCM primitive itself lives in Go's
crypto/aes and crypto/cipher, outside this repository.  Per the spec the
ciphertext layout is `nonce(12) || encrypted(body) || tag(16)`; GCM
encrypts by xor against a keystream derived from key and nonce and
authenticates the ciphertext with a tag that is a deterministic function of
key, nonce and ciphertext.  The keystream derivation `KS` and the tag
function `TAG` are parameters; the wrapper code of part_008 is translated
verbatim on top of them. -/

def gcmNonceSize : Nat := 12

def gcmTagSize : Nat := 16

/-- gcm.Seal(nil, nonce, plaintext, nil): ciphertext then tag. -/
def gcmSeal (KS : List Nat → List Nat → Nat → List Nat)
    (TAG : List Nat → List Nat → List Nat → List Nat)
    (key nonce pt : List Nat) : List Nat :=
  let ct := List.zipWith Nat.xor pt (KS key nonce pt.length)
  ct ++ TAG key nonce ct

/-- gcm.Open(nil, nonce, data, nil): recompute and compare the tag, then
strip the keystream; any mismatch (or a too-short input) fails. -/
def gcmOpen (KS : List Nat → List Nat → Nat → List Nat)
    (TAG : List Nat → List Nat → List Nat → List Nat)
    (key nonce data : List Nat) : Except Str (List Nat) :=
  if data.length < gcmTagSize then
    .error (str "cipher: message authentication failed")
  else
    let ct := data.take (data.length - gcmTagSize)
    let tag := data.drop (data.length - gcmTagSize)
    if tag = TAG key nonce ct then
      .ok (List.zipWith Nat.xor ct (KS key nonce ct.length))
    else .error (str "cipher: message authentication failed")

/-- aes.NewCipher key-length check. -/
def aesKeyOk (key : List Nat) : Bool :=
  key.length = 16 || key.length = 24 || key.length = 32

/-- Encrypt (part_008 lines 328-345): the 12 random nonce bytes - the
crypto/rand collaborator - are a parameter; `gcm.Seal(nonce, nonce, data,
nil)` appends the sealed box to the nonce. -/
def Encrypt (KS : List Nat → List Nat → Nat → List Nat)
    (TAG : List Nat → List Nat → List Nat → List Nat)
    (nonce data key : List Nat) : Except Str (List Nat) :=
  if ¬ aesKeyOk key then .error (str "crypto/aes: invalid key size")
  else .ok (nonce ++ gcmSeal KS TAG key nonce data)

/-- Decrypt (part_008 lines 347-367): reject inputs shorter than the nonce,
split the nonce off, open the rest. -/
def Decrypt (KS : List Nat → List Nat → Nat → List Nat)
    (TAG : List Nat → List Nat → List Nat → List Nat)
    (encrypted key : List Nat) : Except Str (List Nat) :=
  if ¬ aesKeyOk key then .error (str "crypto/aes: invalid key size")
  else if encrypted.length < gcmNonceSize then .error (str "encrypted data too short")
  else gcmOpen KS TAG key (encrypted.take gcmNonceSize) (encrypted.drop gcmNonceSize)

/-! ## Concrete instances used by witnesses and counterexamples -/

/-- An instantiation of the external collaborators: geo-IP always
unavailable (its best-effort failure mode), JSON codecs failing. -/
def extW : Ext :=
  { countryLookup := fun _ => [], jsonVMess := fun _ => none,
    vmessMapAdd := fun _ => none, vmessSetPs := fun d _ => d }

def poolStateW : PoolState :=
  { started := true, ctxDone := false, queue := [], cap := 1,
    totalTasks := 0, completedTasks := 0, failedTasks := 0 }

/-- poolStateW after a successful enqueue of one task. -/
def poolStateW2 : PoolState :=
  { started := true, ctxDone := false, queue := [str "t"], cap := 1,
    totalTasks := 1, completedTasks := 0, failedTasks := 0 }

def apiStateW : ApiState :=
  { lock := { writerHeld := true, readers := 0 }, jobs := [] }

/-- A decoded vmess link configuration whose port is a positive string of
digits one past the signed 64-bit maximum. -/
def vmessOverflowLC : VmessLinkConfig :=
  { add := str "a", port := str "9223372036854775808", id := str "b" }

/-- A successful and a failed check result, for the job-lifecycle witnesses. -/
def resW1 : CheckResultM := emptyCheckResult (str "a")

def resW2 : CheckResultM :=
  { emptyCheckResult (str "b") with status := .error, errorText := str "x" }

/-- A decoded vmess link configuration with an ordinary in-range port. -/
def vmessW : VmessLinkConfig :=
  { add := str "a", port := str "443", id := str "b", aid := str "0" }

/-- A well-formed Shadowsocks link (auth is raw-std base64 of
aes-256-gcm:pass). -/
def ssLinkW : Str := str "ss://YWVzLTI1Ni1nY206cGFzcw@1.2.3.4:8388"

/-- What parseSS returns on ssLinkW. -/
def ssCfgW : SSConfig :=
  { server := str "1.2.3.4", port := 8388, method := strBytes (str "aes-256-gcm"),
    password := strBytes (str "pass"), remark := [] }

/-! # Theorems -/

/-! ## Shared list lemmas -/

theorem zipWith_xor_cancel (a b : List Nat) (h : b.length = a.length) :
    List.zipWith Nat.xor (List.zipWith Nat.xor a b) b = a := by
  induction a generalizing b with
  | nil => simp
  | cons x xs ih =>
    cases b with
    | nil => simp at h
    | cons y ys =>
      simp only [List.zipWith_cons_cons, List.cons.injEq]
      refine ⟨Nat.xor_cancel_right y x, ih ys ?_⟩
      simpa using h

theorem lastIdx_eq_none_of_not_mem {c : Char} {l : Str} (h : c ∉ l) :
    lastIdx c l = none := by
  induction l with
  | nil => rfl
  | cons a rest ih =>
    simp only [List.mem_cons, not_or] at h
    simp [lastIdx, ih h.2, h.1, Ne.symm h.1]

theorem lastIdx_append_of_not_mem {c : Char} {l2 : Str} (l1 : Str) (h : c ∉ l2) :
    lastIdx c (l1 ++ l2) = lastIdx c l1 := by
  induction l1 with
  | nil => simp [lastIdx_eq_none_of_not_mem h, lastIdx]
  | cons a rest ih =>
    simp only [List.cons_append, lastIdx, List.append_eq, ih]

theorem splitOn_eq_single {c : Char} {l : Str} (h : c ∉ l) :
    List.splitOn c l = [l] := by
  refine List.splitOnP_eq_single _ _ ?_
  intro x hx hbeq
  exact h (by simpa using (beq_iff_eq.mp hbeq ▸ hx))

/-! ## C8: encryption round-trip -/

/-- C8: for every 32-byte key K, every 12-byte nonce and every byte string
x, part_008's Decrypt inverts Encrypt: the encryption output is the nonce
prepended to the GCM ciphertext plus 16-byte tag, and decryption on that
layout returns x.  Quantified over the GCM keystream and tag functions (the
crypto/cipher collaborator), assuming only their length contracts. -/
theorem encrypt_decrypt_roundtrip
    (KS : List Nat → List Nat → Nat → List Nat)
    (TAG : List Nat → List Nat → List Nat → List Nat)
    (key nonce data : List Nat) (hkey : key.length = 32)
    (hnonce : nonce.length = 12)
    (hKS : ∀ k n l, (KS k n l).length = l)
    (hTAG : ∀ k n c, (TAG k n c).length = 16) :
    ∃ enc, Encrypt KS TAG nonce data key = .ok enc ∧
      enc.take gcmNonceSize = nonce ∧
      enc.length = gcmNonceSize + data.length + gcmTagSize ∧
      Decrypt KS TAG enc key = .ok data := by
  have hkeyok : aesKeyOk key = true := by simp [aesKeyOk, hkey]
  have hks : (KS key nonce data.length).length = data.length := hKS _ _ _
  set ct := List.zipWith Nat.xor data (KS key nonce data.length) with hct
  have hctlen : ct.length = data.length := by
    simp [hct, List.length_zipWith, hks]
  have htag : (TAG key nonce ct).length = 16 := hTAG _ _ _
  refine ⟨nonce ++ (ct ++ TAG key nonce ct), ?_, ?_, ?_, ?_⟩
  · simp [Encrypt, hkeyok, gcmSeal, hct]
  · exact List.take_left' hnonce
  · simp [List.length_append, hctlen, htag, hnonce, gcmNonceSize, gcmTagSize]
    omega
  · have hdrop : (nonce ++ (ct ++ TAG key nonce ct)).drop gcmNonceSize
        = ct ++ TAG key nonce ct := List.drop_left' hnonce
    have htake : (nonce ++ (ct ++ TAG key nonce ct)).take gcmNonceSize = nonce :=
      List.take_left' hnonce
    have hlen : (nonce ++ (ct ++ TAG key nonce ct)).length = 12 + (ct.length + 16) := by
      simp [List.length_append, hnonce, htag]
    unfold Decrypt
    rw [if_neg (by simp [hkeyok]), if_neg (by simp [hlen, gcmNonceSize]), hdrop, htake]
    unfold gcmOpen
    have hlen2 : (ct ++ TAG key nonce ct).length = ct.length + 16 := by
      simp [List.length_append, htag]
    rw [if_neg (by simp [hlen2, gcmTagSize])]
    have harith : (ct ++ TAG key nonce ct).length - gcmTagSize = ct.length := by
      simp [hlen2, gcmTagSize]
    rw [harith, List.take_left, List.drop_left, if_pos rfl, hctlen, hct,
      zipWith_xor_cancel _ _ hks]

/-- Witness for C8 at a concrete keystream, tag function, key, nonce and
plaintext. -/
theorem encrypt_decrypt_roundtrip_witness :
    ∃ enc,
      Encrypt (fun _ _ l => List.replicate l 7) (fun _ _ _ => List.replicate 16 3)
          (List.replicate 12 0) [1, 2, 3] (List.replicate 32 0) = .ok enc ∧
      enc.take gcmNonceSize = List.replicate 12 0 ∧
      enc.length = gcmNonceSize + [1, 2, 3].length + gcmTagSize ∧
      Decrypt (fun _ _ l => List.replicate l 7) (fun _ _ _ => List.replicate 16 3)
          enc (List.replicate 32 0) = .ok [1, 2, 3] :=
  encrypt_decrypt_roundtrip _ _ _ _ _ (by decide) (by decide)
    (fun _ _ l => by simp) (fun _ _ _ => by simp)

/-! ## C9: worker-pool Submit is non-blocking -/

/-- C9: on a started pool whose context is live, every outcome the Submit
select can produce is determined: with room in the queue the task is
enqueued and totalTasks incremented by one; with the queue at capacity the
queue-full error is returned and the state - totalTasks included - is left
unchanged.  (The select carries a default branch, so Submit never blocks.) -/
theorem submit_nonblocking (t : Str) (s : PoolState) (out : PoolState × Option Str)
    (h1 : s.started = true) (h2 : s.ctxDone = false) (hstep : SubmitStep t s out) :
    (s.queue.length < s.cap →
        out = ({ s with queue := s.queue ++ [t], totalTasks := s.totalTasks + 1 }, none)) ∧
    (¬ s.queue.length < s.cap → out = (s, some (str "task queue is full"))) := by
  cases hstep with
  | notStarted h => rw [h1] at h; cases h
  | enqueue h hq =>
    exact ⟨fun _ => rfl, fun hq2 => absurd hq hq2⟩
  | shutdown h hd => rw [h2] at hd; cases hd
  | queueFull h hq hd =>
    exact ⟨fun hlt => absurd hlt hq, fun _ => rfl⟩

/-- Witness for C9: a started, live pool with an empty queue of capacity
one; Submit enqueues the task and increments totalTasks. -/
theorem submit_nonblocking_witness :
    poolStateW.started = true ∧ poolStateW.ctxDone = false ∧
    poolStateW.queue.length < poolStateW.cap ∧
    (poolStateW2, (none : Option Str)).1.totalTasks = poolStateW.totalTasks + 1 ∧
    (poolStateW.queue.length < poolStateW.cap →
      (poolStateW2, (none : Option Str)) =
        ({ poolStateW with
            queue := poolStateW.queue ++ [str "t"],
            totalTasks := poolStateW.totalTasks + 1 }, none)) :=
  ⟨rfl, rfl, by decide, rfl,
    (submit_nonblocking (str "t") poolStateW (poolStateW2, none) rfl rfl
      (SubmitStep.enqueue poolStateW rfl (by decide))).1⟩

/-! ## C2: scans are rejected while the refresh holds the exclusive lock -/

/-- C2: whenever the exclusive reservation lock is held by the background
refresh, handleScan fails the TryRLock gate, answers 503 with the
refresh-in-progress message, and leaves the state - in particular the job
registry - unchanged: no job is created, whatever the request body, dedup
or submission collaborators would have done. -/
theorem scan_rejected_during_refresh (reqConfigs : Except Str (List Str))
    (dedup : List Str → Except Str (List Str)) (newId : Str)
    (submitRes : Except Str Unit) (st : ApiState)
    (hw : st.lock.writerHeld = true) :
    handleScan reqConfigs dedup newId submitRes st =
      ({ code := 503, message := str "Background refresh in progress" }, st) := by
  unfold handleScan tryRLock
  rw [hw]
  simp

/-- Witness for C2 at a concrete held lock and request. -/
theorem scan_rejected_during_refresh_witness :
    apiStateW.lock.writerHeld = true ∧
    handleScan (.ok [str "ss://x"]) (fun c => .ok c) (str "id") (.ok ()) apiStateW =
      ({ code := 503, message := str "Background refresh in progress" }, apiStateW) :=
  ⟨rfl, scan_rejected_during_refresh _ _ _ _ _ rfl⟩

/-! ## C3: scope of the exclusive lock across the refresh flow -/

/-- C3 counterexample: on a successful refresh cycle (non-empty artifact,
flush and submit succeed, job later completes) the system trace shows the
deferred unlock firing when performBackgroundRefresh returns - strictly
before the job-completion callback - so the lock is not released "only on
completion via the callback" as claimed. -/
theorem refresh_unlock_before_completion :
    refreshSystemTrace (.ok [str "cfg"]) true true none =
      [RefreshEvent.lockAcquire, RefreshEvent.fetch, RefreshEvent.flush,
       RefreshEvent.jobStart, RefreshEvent.submitTask, RefreshEvent.lockRelease,
       RefreshEvent.jobComplete] ∧
    List.indexOf RefreshEvent.lockRelease
        (refreshSystemTrace (.ok [str "cfg"]) true true none) <
      List.indexOf RefreshEvent.jobComplete
        (refreshSystemTrace (.ok [str "cfg"]) true true none) := by
  decide

/-- C3 amended: the refresh routine acquires the exclusive lock first,
holds it across the artifact fetch, the cache flush and the task
submission, and releases it exactly once, when the routine itself returns
(on every path, via the deferred unlock) - not when the refresh job
completes: the completion callback emits no lock event at all. -/
theorem refresh_lock_scope (fetchRes : Except Str (List Str)) (flushOk submitOk : Bool) :
    (performBackgroundRefresh fetchRes flushOk submitOk).head? =
        some RefreshEvent.lockAcquire ∧
    (performBackgroundRefresh fetchRes flushOk submitOk).getLast? =
        some RefreshEvent.lockRelease ∧
    (performBackgroundRefresh fetchRes flushOk submitOk).count
        RefreshEvent.lockRelease = 1 ∧
    RefreshEvent.jobComplete ∉ performBackgroundRefresh fetchRes flushOk submitOk ∧
    refreshCallback none = [RefreshEvent.jobComplete] ∧
    RefreshEvent.lockRelease ∉ refreshCallback none ∧
    RefreshEvent.lockRelease ∉ refreshCallback (some (str "e")) := by
  rcases fetchRes with e | configs
  · exact ⟨rfl, rfl, rfl, by simp [performBackgroundRefresh], rfl,
      by simp [refreshCallback], by simp [refreshCallback]⟩
  · by_cases hc : configs.length = 0 <;> cases flushOk <;> cases submitOk <;>
      refine ⟨?_, ?_, ?_, ?_, rfl, by simp [refreshCallback], by simp [refreshCallback]⟩ <;>
      simp [performBackgroundRefresh, hc, List.count_cons, List.getLast?]

/-! ## C1 and C10: job lifecycle invariants of executeCheckTask -/

theorem processOneResult_job_id (sha : List Nat → Str) (st : TaskStepState)
    (r : CheckResultM) : (processOneResult sha st r).job.id = st.job.id := by
  simp only [processOneResult]
  split <;> split <;> rfl

theorem processOneResult_notified (sha : List Nat → Str) (st : TaskStepState)
    (r : CheckResultM) :
    (processOneResult sha st r).notified =
      st.notified ++
        (if r.errorText = [] ∧ ¬ (str "refresh-").isPrefixOf st.job.id then [r]
         else []) := by
  simp only [processOneResult]
  split <;> simp

theorem processOneResult_job_counts (sha : List Nat → Str) (st : TaskStepState)
    (r : CheckResultM) :
    (processOneResult sha st r).job.totalCount = st.job.totalCount ∧
    (processOneResult sha st r).job.doneCount = st.job.doneCount + 1 ∧
    (processOneResult sha st r).job.status =
      (if st.job.totalCount ≤ st.job.doneCount + 1 then JobStatus.completed
       else st.job.status) := by
  simp only [processOneResult]
  by_cases he : r.errorText = [] <;>
    simp [he, addResult, doneJob, completeJob, updateStatus] <;>
    split <;> simp

theorem foldl_notified (sha : List Nat → Str) (rs : List CheckResultM) :
    ∀ st : TaskStepState,
      (rs.foldl (processOneResult sha) st).notified =
        st.notified ++
          (if (str "refresh-").isPrefixOf st.job.id then []
           else rs.filter fun r => r.errorText.isEmpty) := by
  induction rs with
  | nil => intro st; simp
  | cons r rest ih =>
    intro st
    rw [List.foldl_cons, ih, processOneResult_notified, processOneResult_job_id]
    by_cases hp : (str "refresh-").isPrefixOf st.job.id
    · simp [hp]
    · by_cases he : r.errorText = [] <;>
        simp [hp, he, List.filter_cons, List.isEmpty_iff]

theorem exec_job_counts (sha : List Nat → Str) (rs : List CheckResultM) :
    ∀ (st : TaskStepState) (n k : Nat),
      st.job.totalCount = n → st.job.doneCount = k →
      st.job.status = (if n ≤ k then JobStatus.completed else JobStatus.running) →
      k + rs.length ≤ n →
      (rs.foldl (processOneResult sha) st).job.totalCount = n ∧
      (rs.foldl (processOneResult sha) st).job.doneCount = k + rs.length ∧
      (rs.foldl (processOneResult sha) st).job.status =
        (if n ≤ k + rs.length then JobStatus.completed else JobStatus.running) := by
  induction rs with
  | nil =>
    intro st n k h1 h2 h3 _
    simpa [h1, h2] using h3
  | cons r rest ih =>
    intro st n k h1 h2 h3 hle
    rw [List.foldl_cons]
    obtain ⟨ht, hd, hs⟩ := processOneResult_job_counts sha st r
    have hk1 : k + 1 ≤ n := by
      simp only [List.length_cons] at hle
      omega
    have hs2 : (processOneResult sha st r).job.status =
        (if n ≤ k + 1 then JobStatus.completed else JobStatus.running) := by
      rw [hs, h1, h2, h3]
      by_cases hc : n ≤ k + 1
      · simp [hc]
      · have hnk : ¬ n ≤ k := by omega
        simp [hc, hnk]
    have := ih (processOneResult sha st r) n (k + 1) (ht.trans h1)
      (by rw [hd, h2]) hs2 (by simp only [List.length_cons] at hle; omega)
    simpa [Nat.add_assoc, Nat.add_comm 1 rest.length] using this

/-- C1: along a job execution - a job freshly created from a non-empty
configuration batch, started, then fed any prefix of its per-config check
results - doneCount always equals the number of results accounted so far,
never exceeds totalCount, and the job's status is completed exactly when
doneCount has reached totalCount (each result increments doneCount exactly
once, via Done or AddResult, and the transition to completed fires at the
last accounted result). -/
theorem job_done_le_total_completed_iff (sha : List Nat → Str) (id : Str)
    (configs : List Str) (rs : List CheckResultM) (hne : configs ≠ [])
    (hlen : rs.length ≤ configs.length) :
    (executeCheckTask sha (startJob (newJob id configs)) rs).job.doneCount = rs.length ∧
    (executeCheckTask sha (startJob (newJob id configs)) rs).job.doneCount ≤
      (executeCheckTask sha (startJob (newJob id configs)) rs).job.totalCount ∧
    ((executeCheckTask sha (startJob (newJob id configs)) rs).job.status =
        JobStatus.completed ↔
      (executeCheckTask sha (startJob (newJob id configs)) rs).job.doneCount =
        (executeCheckTask sha (startJob (newJob id configs)) rs).job.totalCount) := by
  have hpos : 0 < configs.length := List.length_pos.mpr hne
  have h3 : (startJob (newJob id configs)).status =
      (if configs.length ≤ 0 then JobStatus.completed else JobStatus.running) := by
    rw [if_neg (by omega)]
    rfl
  obtain ⟨ht, hd, hs⟩ := exec_job_counts sha rs
    { job := startJob (newJob id configs), notified := [], idx := 0 }
    configs.length 0 rfl rfl h3 (by simpa using hlen)
  rw [executeCheckTask] at *
  refine ⟨by simpa using hd, ?_, ?_⟩
  · rw [ht, hd]
    simpa using hlen
  · rw [ht, hd, hs]
    by_cases hc : configs.length ≤ 0 + rs.length
    · constructor
      · intro _
        omega
      · intro _
        rw [if_pos hc]
    · constructor
      · intro h
        rw [if_neg hc] at h
        cases h
      · intro h
        exact absurd h (by omega)

/-- Witness for C1: a two-config job processing one success and one error
result reaches doneCount 2 = totalCount and status completed. -/
theorem job_done_le_total_completed_iff_witness :
    ([str "c1", str "c2"] : List Str) ≠ [] ∧
    ([resW1, resW2].length ≤ ([str "c1", str "c2"] : List Str).length) ∧
    ((executeCheckTask (fun _ => []) (startJob (newJob (str "j") [str "c1", str "c2"]))
        [resW1, resW2]).job.doneCount = [resW1, resW2].length ∧
      (executeCheckTask (fun _ => []) (startJob (newJob (str "j") [str "c1", str "c2"]))
          [resW1, resW2]).job.doneCount ≤
        (executeCheckTask (fun _ => []) (startJob (newJob (str "j") [str "c1", str "c2"]))
            [resW1, resW2]).job.totalCount ∧
      ((executeCheckTask (fun _ => []) (startJob (newJob (str "j") [str "c1", str "c2"]))
            [resW1, resW2]).job.status = JobStatus.completed ↔
        (executeCheckTask (fun _ => []) (startJob (newJob (str "j") [str "c1", str "c2"]))
            [resW1, resW2]).job.doneCount =
          (executeCheckTask (fun _ => []) (startJob (newJob (str "j") [str "c1", str "c2"]))
              [resW1, resW2]).job.totalCount)) :=
  ⟨by decide, by decide,
    job_done_le_total_completed_iff (fun _ => []) (str "j") [str "c1", str "c2"]
      [resW1, resW2] (by decide) (by decide)⟩

/-- C10: the per-result notifications of executeCheckTask are exactly the
error-free results when the job's ID does not carry the refresh- prefix,
and none at all when it does - `jobsOnSuccess` is never invoked for a
refresh job. -/
theorem refresh_jobs_never_notify (sha : List Nat → Str) (id : Str)
    (configs : List Str) (rs : List CheckResultM) :
    (executeCheckTask sha (startJob (newJob id configs)) rs).notified =
      if (str "refresh-").isPrefixOf id then []
      else rs.filter fun r => r.errorText.isEmpty := by
  rw [executeCheckTask, foldl_notified]
  simp [startJob, newJob, updateStatus]

/-! ## Digit-string facts shared by the parser claims -/

theorem digits_no_special {d : Str} (hdig : d.all isDigitChar = true) :
    '#' ∉ d ∧ '@' ∉ d ∧ ':' ∉ d ∧ '[' ∉ d ∧ ']' ∉ d := by
  have h := List.all_eq_true.mp hdig
  refine ⟨?_, ?_, ?_, ?_, ?_⟩ <;> intro hm <;> have h2 := h _ hm <;> revert h2 <;> decide

theorem goAtoi_digits {d : Str} (hne : d ≠ []) (hdig : d.all isDigitChar = true)
    (hb : digitsVal d ≤ maxInt64) : goAtoi d = some ((digitsVal d : Nat) : Int) := by
  obtain ⟨c, t, rfl⟩ := List.exists_cons_of_ne_nil hne
  have hc : isDigitChar c = true := by
    have := List.all_eq_true.mp hdig c (by simp)
    exact this
  have hsign : ¬ (c = '-' ∨ c = '+') := by
    rintro (rfl | rfl) <;> revert hc <;> decide
  have hneg : ¬ c = '-' := fun h => hsign (Or.inl h)
  unfold goAtoi
  dsimp only
  rw [if_neg hsign]
  rw [if_neg (by simp)]
  rw [if_neg (not_not_intro hdig)]
  rw [if_neg hneg, if_pos hb]

/-! ## C7: vmess parse characterization over decoded bodies -/

/-- C7 counterexample: a decoded vmess body whose add and id are non-empty
and whose port is a string of digits with positive value is nevertheless
rejected - the port digits exceed the signed 64-bit range, so
`strconv.Atoi` fails and parse errors although the claim's conditions
(add non-empty, id non-empty, port > 0) all hold. -/
theorem vmess_port_overflow_counterexample :
    parseVMessDecoded vmessOverflowLC = .error (str "invalid port") ∧
    vmessOverflowLC.add ≠ [] ∧ vmessOverflowLC.id ≠ [] ∧
    vmessOverflowLC.port.all isDigitChar = true ∧
    0 < digitsVal vmessOverflowLC.port :=
  ⟨rfl, by decide, by decide, by decide, by decide⟩

/-- C7 amended: for a decoded vmess body whose port and aid are non-empty
strings of digits with values inside the signed 64-bit range, Parse
succeeds exactly when add is non-empty, id is non-empty and the port value
is positive, returning port and aid coerced to integers and the defaults
scy=auto, net=tcp, type=none for absent fields. -/
theorem vmess_parse_characterization (lc : VmessLinkConfig)
    (hpd : lc.port.all isDigitChar = true) (hpne : lc.port ≠ [])
    (hpb : digitsVal lc.port ≤ maxInt64)
    (had : lc.aid.all isDigitChar = true) (hane : lc.aid ≠ [])
    (hab : digitsVal lc.aid ≤ maxInt64) :
    parseVMessDecoded lc =
      (if lc.add = [] then .error (str "server address is required")
       else if lc.id = [] then .error (str "user ID is required")
       else if digitsVal lc.port = 0 then .error (str "port is required")
       else .ok { server := lc.add, port := ((digitsVal lc.port : Nat) : Int),
                  id := lc.id, alterId := ((digitsVal lc.aid : Nat) : Int),
                  security := if lc.scy = [] then str "auto" else lc.scy,
                  network := if lc.net = [] then str "tcp" else lc.net,
                  typeF := if lc.typeF = [] then str "none" else lc.typeF,
                  host := lc.host, path := lc.path, tls := lc.tls, sni := lc.sni,
                  remark := lc.ps }) := by
  unfold parseVMessDecoded
  rw [if_pos hpne, goAtoi_digits hpne hpd hpb, if_pos hane,
    goAtoi_digits hane had hab]
  dsimp only
  by_cases h1 : lc.scy = [] <;> by_cases h2 : lc.net = [] <;>
    by_cases h3 : lc.typeF = [] <;>
    simp only [h1, h2, h3, if_true, if_false, ite_true, ite_false] <;>
    by_cases h4 : lc.add = [] <;> simp only [h4, if_true, if_false, ite_true, ite_false] <;>
    by_cases h5 : lc.id = [] <;> simp only [h5, if_true, if_false, ite_true, ite_false] <;>
    first
      | rfl
      | (by_cases h6 : digitsVal lc.port = 0 <;>
          simp [h6, Int.natCast_eq_zero])

/-- Witness for C7 at a decoded body with port 443 and aid 0. -/
theorem vmess_parse_characterization_witness :
    vmessW.port.all isDigitChar = true ∧ vmessW.port ≠ [] ∧
    digitsVal vmessW.port ≤ maxInt64 ∧
    vmessW.aid.all isDigitChar = true ∧ vmessW.aid ≠ [] ∧
    digitsVal vmessW.aid ≤ maxInt64 ∧
    parseVMessDecoded vmessW =
      (if vmessW.add = [] then .error (str "server address is required")
       else if vmessW.id = [] then .error (str "user ID is required")
       else if digitsVal vmessW.port = 0 then .error (str "port is required")
       else .ok { server := vmessW.add, port := ((digitsVal vmessW.port : Nat) : Int),
                  id := vmessW.id, alterId := ((digitsVal vmessW.aid : Nat) : Int),
                  security := if vmessW.scy = [] then str "auto" else vmessW.scy,
                  network := if vmessW.net = [] then str "tcp" else vmessW.net,
                  typeF := if vmessW.typeF = [] then str "none" else vmessW.typeF,
                  host := vmessW.host, path := vmessW.path, tls := vmessW.tls,
                  sni := vmessW.sni, remark := vmessW.ps }) :=
  ⟨by decide, by decide, by decide, by decide, by decide, by decide,
    vmess_parse_characterization vmessW (by decide) (by decide) (by decide)
      (by decide) (by decide) (by decide)⟩

/-! ## C5: no port-range (or server) validation in the parsers -/

/-- C5 counterexample: an ss link with an empty host and port 70000 - a
port far outside [1, 65535] - parses successfully; parseSS validates
neither the server nor the port range, refuting the claimed invariant. -/
theorem ss_port_out_of_range_counterexample :
    parseSS (str "ss://YWVzLTI1Ni1nY206cGFzcw@:70000") =
      .ok { server := [], port := 70000, method := strBytes (str "aes-256-gcm"),
            password := strBytes (str "pass"), remark := [] } ∧
    (65535 : Int) < 70000 :=
  ⟨rfl, by decide⟩

/-- C5 amended: parseSS performs no validation at all - for every string
of digits d (value within the 64-bit range `strconv.Atoi` accepts,
including every value above 65535), the link with port text d parses
successfully with port equal to the numeric value of d; the trojan, vless
and vmess parsers do reject port 0 and an empty server, but they too
accept port 70000, so no parser enforces the upper bound 65535. -/
theorem ss_parse_no_port_validation (d : Str) (hne : d ≠ [])
    (hdig : d.all isDigitChar = true) (hb : digitsVal d ≤ maxInt64) :
    (parseSS (str "ss://YWVzLTI1Ni1nY206cGFzcw@1.2.3.4:" ++ d) =
      .ok { server := str "1.2.3.4", port := ((digitsVal d : Nat) : Int),
            method := strBytes (str "aes-256-gcm"),
            password := strBytes (str "pass"), remark := [] }) ∧
    (parseTrojan (str "trojan://pw@h:70000") =
      .ok { server := str "h", port := 70000, password := str "pw", sni := [],
            alpn := [], network := str "tcp", headerType := [], host := [],
            path := [], mode := [], authority := [], serviceName := [],
            security := str "tls", allowInsecure := false, remark := [] }) ∧
    (parseTrojan (str "trojan://pw@h:0") = .error (str "port is required")) ∧
    (parseTrojan (str "trojan://pw@:70000") =
      .error (str "server address is required")) ∧
    (parseVless (str "vless://u@h:70000") =
      .ok { server := str "h", port := 70000, id := str "u",
            encryption := str "none", flow := [], security := [], sni := [],
            alpn := [], network := str "tcp", headerType := [], host := [],
            path := [], mode := [], authority := [], serviceName := [],
            remark := [] }) ∧
    (parseVless (str "vless://u@h:0") = .error (str "port is required")) ∧
    (parseVless (str "vless://u@:70000") =
      .error (str "server address is required")) ∧
    (parseVMessDecoded { add := str "a", id := str "b", port := str "70000" } =
      .ok { server := str "a", port := 70000, id := str "b", alterId := 0,
            security := str "auto", network := str "tcp", typeF := str "none",
            host := [], path := [], tls := [], sni := [], remark := [] }) ∧
    (parseVMessDecoded { add := str "a", id := str "b", port := str "0" } =
      .error (str "port is required")) ∧
    (parseVMessDecoded { add := [], id := str "b", port := str "70000" } =
      .error (str "server address is required")) := by
  refine ⟨?_, rfl, rfl, rfl, rfl, rfl, rfl, rfl, rfl, rfl⟩
  obtain ⟨hH, hA, hC, hB1, hB2⟩ := digits_no_special hdig
  have hsplit : List.splitOn '#' (str "YWVzLTI1Ni1nY206cGFzcw@1.2.3.4:" ++ d) =
      [str "YWVzLTI1Ni1nY206cGFzcw@1.2.3.4:" ++ d] := by
    apply splitOn_eq_single
    rw [List.mem_append]
    rintro (h | h)
    · revert h
      decide
    · exact hH h
  have hat : lastIdx '@' (str "YWVzLTI1Ni1nY206cGFzcw@1.2.3.4:" ++ d) = some 22 := by
    rw [lastIdx_append_of_not_mem _ hA]
    rfl
  have hnb1 : ¬ ('[' ∈ (str "1.2.3.4:" ++ d).drop 0) := by
    rw [List.drop_zero, List.mem_append]
    rintro (h | h)
    · revert h
      decide
    · exact hB1 h
  have hnb2 : ¬ (']' ∈ (str "1.2.3.4:" ++ d).drop 0) := by
    rw [List.drop_zero, List.mem_append]
    rintro (h | h)
    · revert h
      decide
    · exact hB2 h
  have hhp : goSplitHostPort (str "1.2.3.4:" ++ d) = some (str "1.2.3.4", d) := by
    have h1 : lastIdx ':' (str "1.2.3.4:" ++ d) = some 7 := by
      rw [lastIdx_append_of_not_mem _ hC]
      rfl
    have h5 : (str "1.2.3.4:" ++ d).take 7 = str "1.2.3.4" :=
      (List.take_append_of_le_length (by decide)).trans (by decide)
    have h6 : (str "1.2.3.4:" ++ d).drop (7 + 1) = d := List.drop_left' (by decide)
    unfold goSplitHostPort
    rw [h1]
    dsimp only
    rw [show (str "1.2.3.4:" ++ d).head? = some '1' from rfl,
      if_neg (by decide : ¬ ((some '1' : Option Char) = some '[')), h5,
      if_neg (by decide : ¬ (':' ∈ str "1.2.3.4"))]
    dsimp only
    rw [if_neg hnb1, if_neg hnb2, h6]
  have hpre : ((str "ss://").isPrefixOf
      (str "ss://YWVzLTI1Ni1nY206cGFzcw@1.2.3.4:" ++ d)) = true := by
    rw [List.isPrefixOf_iff_prefix]
    exact (show (str "ss://") <+: str "ss://YWVzLTI1Ni1nY206cGFzcw@1.2.3.4:" by
      decide).trans (List.prefix_append _ _)
  have hdrop5 : (str "ss://YWVzLTI1Ni1nY206cGFzcw@1.2.3.4:" ++ d).drop 5 =
      str "YWVzLTI1Ni1nY206cGFzcw@1.2.3.4:" ++ d :=
    (List.drop_append_of_le_length (by decide)).trans (by
      rw [show (str "ss://YWVzLTI1Ni1nY206cGFzcw@1.2.3.4:").drop 5 =
        str "YWVzLTI1Ni1nY206cGFzcw@1.2.3.4:" from by decide])
  have htake22 : (str "YWVzLTI1Ni1nY206cGFzcw@1.2.3.4:" ++ d).take 22 =
      str "YWVzLTI1Ni1nY206cGFzcw" :=
    (List.take_append_of_le_length (by decide)).trans (by decide)
  have hdrop23 : (str "YWVzLTI1Ni1nY206cGFzcw@1.2.3.4:" ++ d).drop (22 + 1) =
      str "1.2.3.4:" ++ d :=
    (List.drop_append_of_le_length (by decide)).trans (by
      rw [show (str "YWVzLTI1Ni1nY206cGFzcw@1.2.3.4:").drop (22 + 1) =
        str "1.2.3.4:" from by decide])
  unfold parseSS
  rw [if_neg (not_not_intro hpre), hdrop5]
  dsimp only
  rw [hsplit]
  have hlen1 : ¬ (([str "YWVzLTI1Ni1nY206cGFzcw@1.2.3.4:" ++ d] : List Str).length = 2) := by
    simp
  rw [if_neg hlen1, if_neg hlen1, hat]
  dsimp only
  rw [htake22, hdrop23,
    show base64Chain4 (str "YWVzLTI1Ni1nY206cGFzcw") =
      some (strBytes (str "aes-256-gcm:pass")) from rfl]
  dsimp only
  rw [show List.splitOn 58 (strBytes (str "aes-256-gcm:pass")) =
    [strBytes (str "aes-256-gcm"), strBytes (str "pass")] from rfl]
  rw [if_neg (by simp :
    ¬ (([strBytes (str "aes-256-gcm"), strBytes (str "pass")] : List (List Nat)).length ≠ 2))]
  rw [hhp]
  dsimp only
  rw [goAtoi_digits hne hdig hb]
  rfl

/-- Witness for C5's amended statement at the out-of-range digit string
70000. -/
theorem ss_parse_no_port_validation_witness :
    (str "70000" ≠ ([] : Str)) ∧ (str "70000").all isDigitChar = true ∧
    digitsVal (str "70000") ≤ maxInt64 ∧
    parseSS (str "ss://YWVzLTI1Ni1nY206cGFzcw@1.2.3.4:" ++ str "70000") =
      .ok { server := str "1.2.3.4", port := ((digitsVal (str "70000") : Nat) : Int),
            method := strBytes (str "aes-256-gcm"),
            password := strBytes (str "pass"), remark := [] } :=
  ⟨by decide, by decide, by decide,
    (ss_parse_no_port_validation (str "70000") (by decide) (by decide) (by decide)).1⟩

/-! ## C6: whole-body-base64 ss links are rejected -/

/-- C6 counterexample: the entire body is standard base64 of
aes-256-gcm:pass@1.2.3.4:8388, exactly the form the claim says must parse;
parseSS rejects it, because it looks for a literal at-sign in the body and
a base64 body contains none. -/
theorem ss_whole_body_base64_counterexample :
    parseSS (str "ss://YWVzLTI1Ni1nY206cGFzc0AxLjIuMy40OjgzODg=") =
      .error (str "invalid ShadowSocks link format") := rfl

/-- C6 amended: every ss link whose body contains no literal at-sign (and
no hash; both base64 alphabets exclude both characters, so this covers
every whole-body-base64 link) is rejected with the invalid-format error -
only the `[base64 auth]@host:port` form is supported. -/
theorem ss_whole_body_base64_rejected (body : Str) (hA : '@' ∉ body)
    (hH : '#' ∉ body) :
    parseSS (str "ss://" ++ body) =
      .error (str "invalid ShadowSocks link format") := by
  have hpre : ((str "ss://").isPrefixOf (str "ss://" ++ body)) = true := by
    rw [List.isPrefixOf_iff_prefix]
    exact List.prefix_append _ _
  have hdrop : (str "ss://" ++ body).drop 5 = body := List.drop_left' (by decide)
  unfold parseSS
  rw [if_neg (not_not_intro hpre), hdrop]
  dsimp only
  rw [splitOn_eq_single hH]
  have hlen1 : ¬ (([body] : List Str).length = 2) := by simp
  rw [if_neg hlen1, if_neg hlen1, lastIdx_eq_none_of_not_mem hA]

/-- Witness for C6's amended statement at the counterexample body. -/
theorem ss_whole_body_base64_rejected_witness :
    ('@' ∉ str "YWVzLTI1Ni1nY206cGFzc0AxLjIuMy40OjgzODg=") ∧
    ('#' ∉ str "YWVzLTI1Ni1nY206cGFzc0AxLjIuMy40OjgzODg=") ∧
    parseSS (str "ss://" ++ str "YWVzLTI1Ni1nY206cGFzc0AxLjIuMy40OjgzODg=") =
      .error (str "invalid ShadowSocks link format") :=
  ⟨by decide, by decide,
    ss_whole_body_base64_rejected (str "YWVzLTI1Ni1nY206cGFzc0AxLjIuMy40OjgzODg=")
      (by decide) (by decide)⟩

/-! ## C4: results of failed checks carry a rewritten raw link -/

/-- C4 counterexample: a well-formed ss link that parses but whose check
fails is emitted with status error and the check's error text - but its raw
field is not the original link: CheckConfigs calls FillCheckResult before
inspecting the check error, and the fill rewrites the link (fragment
replaced by the escaped generated remark). -/
theorem check_failure_raw_rewritten_counterexample :
    (checkConfigProcess extW (.error (str "dial timeout")) ssLinkW).status =
        CheckStatus.error ∧
    (checkConfigProcess extW (.error (str "dial timeout")) ssLinkW).errorText =
        str "dial timeout" ∧
    (checkConfigProcess extW (.error (str "dial timeout")) ssLinkW).raw ≠ ssLinkW := by
  refine ⟨rfl, rfl, ?_⟩
  decide

/-- C4 amended: for every link with a lower-case ss, vless or trojan scheme
that parses successfully but whose check fails, the emitted CheckResult has
status error and carries the check error text, but its raw field is the
fill-rewritten link: the fragment (if any) is stripped and the escaped
regenerated remark is appended - the fill step runs after every completed
check, not only after successful ones. -/
theorem check_failure_raw_rewritten (ext : Ext) (etext : Str) (cfg : Str)
    (p rest : Str) (hsplit : goSplitN2 cfg (str "://") = [p, rest])
    (hp : p = str "ss" ∨ p = str "vless" ∨ p = str "trojan")
    (pc : ParsedConfig) (hparse : parseConfig ext.jsonVMess cfg = .ok pc) :
    checkConfigProcess ext (.error etext) cfg =
      { status := .error, protocol := p,
        raw := (List.splitOn '#' cfg).getD 0 [] ++ '#' ::
          pathEscape (generateRemark ext.countryLookup
            (extractServerFromURL ((List.splitOn '#' cfg).getD 0 []))
            p defaultRemarkTemplate).1,
        realDelay := 0,
        remark := (generateRemark ext.countryLookup
          (extractServerFromURL ((List.splitOn '#' cfg).getD 0 []))
          p defaultRemarkTemplate).1,
        server := extractServerFromURL ((List.splitOn '#' cfg).getD 0 []),
        countryCode := (generateRemark ext.countryLookup
          (extractServerFromURL ((List.splitOn '#' cfg).getD 0 []))
          p defaultRemarkTemplate).2,
        errorText := etext } := by
  unfold checkConfigProcess
  rw [hparse]
  dsimp only
  unfold fillCheckResult
  rw [show (emptyCheckResult cfg).raw = cfg from rfl, hsplit]
  dsimp only
  rcases hp with rfl | rfl | rfl <;>
    rw [if_neg (by decide)] <;>
    [rw [if_pos (by decide)]; rw [if_pos (by decide)]; rw [if_pos (by decide)]] <;>
    unfold fillURLResult <;>
    rfl

/-- Witness for C4's amended statement at a concrete ss link and check
error. -/
theorem check_failure_raw_rewritten_witness :
    goSplitN2 ssLinkW (str "://") =
      [str "ss", str "YWVzLTI1Ni1nY206cGFzcw@1.2.3.4:8388"] ∧
    parseConfig extW.jsonVMess ssLinkW = .ok (ParsedConfig.ss ssCfgW) ∧
    checkConfigProcess extW (.error (str "dial timeout")) ssLinkW =
      { status := .error, protocol := str "ss",
        raw := (List.splitOn '#' ssLinkW).getD 0 [] ++ '#' ::
          pathEscape (generateRemark extW.countryLookup
            (extractServerFromURL ((List.splitOn '#' ssLinkW).getD 0 []))
            (str "ss") defaultRemarkTemplate).1,
        realDelay := 0,
        remark := (generateRemark extW.countryLookup
          (extractServerFromURL ((List.splitOn '#' ssLinkW).getD 0 []))
          (str "ss") defaultRemarkTemplate).1,
        server := extractServerFromURL ((List.splitOn '#' ssLinkW).getD 0 []),
        countryCode := (generateRemark extW.countryLookup
          (extractServerFromURL ((List.splitOn '#' ssLinkW).getD 0 []))
          (str "ss") defaultRemarkTemplate).2,
        errorText := str "dial timeout" } :=
  ⟨rfl, rfl,
    check_failure_raw_rewritten extW (str "dial timeout") ssLinkW (str "ss")
      (str "YWVzLTI1Ni1nY206cGFzcw@1.2.3.4:8388") rfl (Or.inl rfl)
      (ParsedConfig.ss ssCfgW) rfl⟩

end Namira
